import Mathlib

/-!
A shallow embedding of the core of the `big_query` repository
(`src/schema_val.py` and the validator variant inside `src/df_bq_ingest.py`):
the token parser (`parse_data`, built on `ast.literal_eval`), the row-to-record
transform (`convert_to_dict_format`) and the schema validator
(`validate_data` / `validate_type`).

Python dynamic values are modelled by the inductive type `Value`.  Finite
floats carry their textual repr (only "int() / float() never fail on a finite
float" and "str() of a float is never one of true/false/1/0" matter to the
code under study; infinities and NaN are outside the model).  Python
exceptions are modelled with `Option` / `Except`: library calls that the
source wraps in try/except are embedded as total functions returning
`Option`, and `validate_data`, which raises `SchemaValidationException`,
returns `Except SchemaViolation Unit`.

Library functions used by the source (`ast.literal_eval`,
`datetime.strptime`, `datetime.fromisoformat`, `re.match` on one fixed
pattern, `int()`, `float()`, `str()`) are embedded from their CPython
semantics (3.8-3.10 era, the apache-beam era the repository targets), over
ASCII data: `strptime` component regexes follow `_strptime.TimeRE`
(`%Y` = 4 digits; `%m` = 1[0-2]|0[1-9]|[1-9]; `%d` = 3[01]|[1-2]\d|0[1-9]|[1-9]|
space[1-9]; `%H`,`%M`,`%S` = 1-2 digits with ranges 0-23 / 0-59 / 0-61;
`%f` = 1-6 digits; a literal blank matches one or more whitespace
characters; `%Z` matches a zone name, which with the usual UTC environment
means "UTC"/"GMT" case-insensitively), followed by the `datetime`
constructor's range checks (calendar-valid date, year >= 1, second <= 59).
-/

/-- ASCII whitespace as matched by a blank in a strptime format and stripped
by `int()` / `float()` (the unicode extras are outside the ASCII model). -/
def isPySpace (c : Char) : Bool :=
  c == ' ' || c == '\t' || c == '\n' || c == '\r' || c == '\x0b' || c == '\x0c'

/-- Numeric value of a digit character. -/
def d1 (c : Char) : Nat := c.toNat - 48

/-- Numeric value of a two-digit string. -/
def dd (a b : Char) : Nat := 10 * d1 a + d1 b

/-- Numeric value of a four-digit string. -/
def d4 (a b c d : Char) : Nat := 1000 * d1 a + 100 * d1 b + 10 * d1 c + d1 d

/-- ASCII lower-casing of one character (`str.lower` restricted to ASCII). -/
def lowerChar (c : Char) : Char :=
  if 'A' ≤ c ∧ c ≤ 'Z' then Char.ofNat (c.toNat + 32) else c

/-- ASCII lower-casing of a string (`str.lower` restricted to ASCII). -/
def lowerStr (s : String) : String := ⟨s.data.map lowerChar⟩

/-- Python runtime values flowing through the parser and the validator.
Tuples and sets are kept distinct from lists only for repr faithfulness;
the validator never distinguishes them.  A float carries its repr text
(finite floats only). -/
inductive Value where
  | null
  | bool (b : Bool)
  | int (n : Int)
  | float (r : String)
  | str (s : String)
  | list (elems : List Value)
  | tuple (elems : List Value)
  | setv (elems : List Value)
  | dict (entries : List (Value × Value))

/-- Python `value is None`. -/
def isNull : Value → Bool
  | .null => true
  | _ => false

mutual

/-- Python `repr` of a `Value` (string quoting/escaping simplified to a plain
single-quote wrap; only the leading character of composite/str reprs is ever
relevant to the validator, via the BOOL membership test). -/
def pyRepr : Value → String
  | .null => "None"
  | .bool b => if b then "True" else "False"
  | .int n => toString n
  | .float r => r
  | .str s => "'" ++ s ++ "'"
  | .list vs => "[" ++ pyReprList vs ++ "]"
  | .tuple vs => "(" ++ pyReprList vs ++ ")"
  | .setv vs => "\x7b" ++ pyReprList vs ++ "\x7d"
  | .dict es => "\x7b" ++ pyReprEntries es ++ "\x7d"

/-- Comma-separated reprs of list elements. -/
def pyReprList : List Value → String
  | [] => ""
  | [v] => pyRepr v
  | v :: vs => pyRepr v ++ ", " ++ pyReprList vs

/-- Comma-separated reprs of dict entries. -/
def pyReprEntries : List (Value × Value) → String
  | [] => ""
  | [(k, v)] => pyRepr k ++ ": " ++ pyRepr v
  | (k, v) :: es => pyRepr k ++ ": " ++ pyRepr v ++ ", " ++ pyReprEntries es

end

/-- Python `str` of a `Value` (`str` and `repr` agree on every non-string
value of the model). -/
def pyStr : Value → String
  | .str s => s
  | v => pyRepr v

/-- Strip ASCII whitespace from both ends (what `int()`/`float()` do to a
string argument before parsing it). -/
def pyStrip (l : List Char) : List Char :=
  ((l.dropWhile isPySpace).reverse.dropWhile isPySpace).reverse

/-- Digit run with single underscores allowed between digits, as in a Python
int literal accepted by `int()` (`"1_0"` is fine, `"_1"`, `"1_"`, `"1__0"`
are not): tail of the run, after its first digit. -/
def digitsURest : List Char → Bool
  | [] => true
  | '_' :: c :: r => c.isDigit && digitsURest r
  | '_' :: [] => false
  | c :: r => c.isDigit && digitsURest r

/-- Nonempty digit run with single underscores allowed between digits. -/
def digitsU : List Char → Bool
  | [] => false
  | c :: r => c.isDigit && digitsURest r

/-- Success of Python `int(s)` on a string: optional surrounding whitespace,
optional sign, then a base-10 digit run (underscores between digits allowed;
leading zeros allowed by `int()`). -/
def pyIntStrOk (s : String) : Bool :=
  match pyStrip s.data with
  | '+' :: r => digitsU r
  | '-' :: r => digitsU r
  | l => digitsU l

/-- Success of Python `int(value)`: succeeds on ints, bools and (finite)
floats, which `int()` truncates; on strings iff they parse as a base-10
integer; `TypeError` (modelled as failure) on everything else. -/
def pyIntOk : Value → Bool
  | .int _ => true
  | .bool _ => true
  | .float _ => true
  | .str s => pyIntStrOk s
  | _ => false

/-- Mantissa-and-exponent body of a Python float string, after the optional
sign: `digits [. [digits]] [exp]` or `. digits [exp]`. -/
def floatMantExp (l : List Char) : Bool :=
  let expOk : List Char → Bool := fun e =>
    match e with
    | [] => true
    | c :: r =>
      (c == 'e' || c == 'E') &&
        (match r with
         | '+' :: r2 => digitsU r2
         | '-' :: r2 => digitsU r2
         | r2 => digitsU r2)
  let intPart := l.takeWhile (fun c => c.isDigit || c == '_')
  let rest := l.dropWhile (fun c => c.isDigit || c == '_')
  match rest with
  | '.' :: r2 =>
    let fracPart := r2.takeWhile (fun c => c.isDigit || c == '_')
    let rest2 := r2.dropWhile (fun c => c.isDigit || c == '_')
    if intPart.isEmpty then digitsU fracPart && expOk rest2
    else
      digitsU intPart && (fracPart.isEmpty || digitsU fracPart) && expOk rest2
  | _ => digitsU intPart && expOk rest

/-- Success of Python `float(s)` on a string: optional whitespace and sign,
then a decimal mantissa with optional exponent, or inf/infinity/nan
(case-insensitively). -/
def pyFloatStrOk (s : String) : Bool :=
  let body : List Char → Bool := fun l =>
    let low := l.map lowerChar
    low == "inf".data || low == "infinity".data || low == "nan".data ||
      floatMantExp l
  match pyStrip s.data with
  | '+' :: r => body r
  | '-' :: r => body r
  | l => body l

/-- Success of Python `float(value)`: ints, bools and floats succeed; strings
iff they parse as a float; `TypeError` (failure) otherwise. -/
def pyFloatOk : Value → Bool
  | .int _ => true
  | .bool _ => true
  | .float _ => true
  | .str s => pyFloatStrOk s
  | _ => false

/-! ## strptime: component matchers

Each component consumes a prefix of the character list and returns its value
and the rest, or `none` when the compiled `TimeRE` regex cannot match.  In
the formats used by the source every component is followed by a non-digit
separator (or the end of the string), so the regex alternations reduce to
the deterministic rules below: when two digits are available the two-digit
alternative must match, else the one-digit alternative applies. -/

/-- `%Y`: exactly four digits. -/
def pY : List Char → Option (Nat × List Char)
  | a :: b :: c :: d :: r =>
    if a.isDigit && b.isDigit && c.isDigit && d.isDigit then
      some (d4 a b c d, r)
    else none
  | _ => none

/-- `%m`: month 1-12, one or two digits (`1[0-2]|0[1-9]|[1-9]`). -/
def pMonth : List Char → Option (Nat × List Char)
  | a :: b :: r =>
    if a.isDigit && b.isDigit then
      if 1 ≤ dd a b ∧ dd a b ≤ 12 then some (dd a b, r) else none
    else if a.isDigit then
      if 1 ≤ d1 a then some (d1 a, b :: r) else none
    else none
  | [a] => if a.isDigit ∧ 1 ≤ d1 a then some (d1 a, []) else none
  | [] => none

/-- `%d`: day 1-31, one or two digits, zero- or blank-padded
(`3[01]|[1-2]\d|0[1-9]|[1-9]| [1-9]`). -/
def pDay : List Char → Option (Nat × List Char)
  | a :: b :: r =>
    if a.isDigit && b.isDigit then
      if 1 ≤ dd a b ∧ dd a b ≤ 31 then some (dd a b, r) else none
    else if a.isDigit then
      if 1 ≤ d1 a then some (d1 a, b :: r) else none
    else if a == ' ' then
      if b.isDigit ∧ 1 ≤ d1 b then some (d1 b, r) else none
    else none
  | [a] => if a.isDigit ∧ 1 ≤ d1 a then some (d1 a, []) else none
  | [] => none

/-- `%H`: hour 0-23, one or two digits (`2[0-3]|[0-1]\d|\d`). -/
def pHour : List Char → Option (Nat × List Char)
  | a :: b :: r =>
    if a.isDigit && b.isDigit then
      if dd a b ≤ 23 then some (dd a b, r) else none
    else if a.isDigit then some (d1 a, b :: r)
    else none
  | [a] => if a.isDigit then some (d1 a, []) else none
  | [] => none

/-- `%M`: minute 0-59, one or two digits (`[0-5]\d|\d`). -/
def pMinute : List Char → Option (Nat × List Char)
  | a :: b :: r =>
    if a.isDigit && b.isDigit then
      if dd a b ≤ 59 then some (dd a b, r) else none
    else if a.isDigit then some (d1 a, b :: r)
    else none
  | [a] => if a.isDigit then some (d1 a, []) else none
  | [] => none

/-- `%S`: second 0-61 in the regex (`6[0-1]|[0-5]\d|\d`, leap seconds
included); the datetime constructor then re-checks `<= 59`. -/
def pSec : List Char → Option (Nat × List Char)
  | a :: b :: r =>
    if a.isDigit && b.isDigit then
      if dd a b ≤ 61 then some (dd a b, r) else none
    else if a.isDigit then some (d1 a, b :: r)
    else none
  | [a] => if a.isDigit then some (d1 a, []) else none
  | [] => none

/-- A literal blank in a strptime format: one or more whitespace chars. -/
def pWs1 : List Char → Option (List Char)
  | c :: r => if isPySpace c then some (r.dropWhile isPySpace) else none
  | [] => none

/-- `%f`: one to six fractional digits (a seventh digit makes the whole
format fail, since every following format element starts non-digit). -/
def pFrac (l : List Char) : Option (List Char) :=
  let n := (l.takeWhile Char.isDigit).length
  if 1 ≤ n ∧ n ≤ 6 then some (l.dropWhile Char.isDigit) else none

/-- `%Z`: a known zone name; with the usual UTC environment the accepted
names are "UTC" and "GMT", case-insensitively. -/
def pZ : List Char → Option (List Char)
  | a :: b :: c :: r =>
    if [lowerChar a, lowerChar b, lowerChar c] == "utc".data ||
        [lowerChar a, lowerChar b, lowerChar c] == "gmt".data then
      some r
    else none
  | _ => none

/-- Leap year (Gregorian), as used by the `datetime` module. -/
def isLeap (y : Nat) : Prop := y % 4 = 0 ∧ (y % 100 ≠ 0 ∨ y % 400 = 0)

instance (y : Nat) : Decidable (isLeap y) := by unfold isLeap; infer_instance

/-- Days in a month, as checked by the `datetime.date` constructor. -/
def daysInMonth (y m : Nat) : Nat :=
  if m = 2 then (if isLeap y then 29 else 28)
  else if m = 4 ∨ m = 6 ∨ m = 9 ∨ m = 11 then 30
  else 31

/-- The `datetime.date` constructor's validity check (year 1-9999; with a
four-digit year the upper bound is automatic). -/
def validDate (y m d : Nat) : Prop :=
  1 ≤ y ∧ 1 ≤ m ∧ m ≤ 12 ∧ 1 ≤ d ∧ d ≤ daysInMonth y m

instance (y m d : Nat) : Decidable (validDate y m d) := by
  unfold validDate; infer_instance

/-- The date-and-time sextuple produced by a strptime match. -/
structure DT where
  y : Nat
  m : Nat
  d : Nat
  h : Nat
  mi : Nat
  s : Nat

/-- The range checks the `datetime` constructor applies to a strptime
result (the hour/minute bounds are already guaranteed by the regex; the
second bound rejects the leap seconds the regex admits). -/
def dtOk (t : DT) : Bool :=
  decide (validDate t.y t.m t.d ∧ t.h ≤ 23 ∧ t.mi ≤ 59 ∧ t.s ≤ 59)

/-- Shared prefix `%Y-%m-%d %H:%M:%S` of the four datetime formats used by
the source; returns the sextuple and the unconsumed rest. -/
def pBase (l : List Char) : Option (DT × List Char) :=
  match pY l with
  | some (y, '-' :: r1) =>
    match pMonth r1 with
    | some (m, '-' :: r2) =>
      match pDay r2 with
      | some (d, r3) =>
        match pWs1 r3 with
        | some r4 =>
          match pHour r4 with
          | some (h, ':' :: r5) =>
            match pMinute r5 with
            | some (mi, ':' :: r6) =>
              match pSec r6 with
              | some (s, r7) => some (⟨y, m, d, h, mi, s⟩, r7)
              | _ => none
            | _ => none
          | _ => none
        | _ => none
      | _ => none
    | _ => none
  | _ => none

/-- `datetime.strptime(value, "%Y-%m-%d %H:%M:%S.%f %Z")` succeeds. -/
def fmt2Ok (l : List Char) : Bool :=
  match pBase l with
  | some (t, '.' :: r) =>
    match pFrac r with
    | some r2 =>
      match pWs1 r2 with
      | some r3 => (match pZ r3 with | some [] => dtOk t | _ => false)
      | none => false
    | none => false
  | _ => false

/-- `datetime.strptime(value, "%Y-%m-%d %H:%M:%S %Z")` succeeds. -/
def fmt3Ok (l : List Char) : Bool :=
  match pBase l with
  | some (t, r) =>
    match pWs1 r with
    | some r2 => (match pZ r2 with | some [] => dtOk t | _ => false)
    | none => false
  | none => false

/-- `datetime.strptime(value, "%Y-%m-%d %H:%M:%S.%f")` succeeds. -/
def fmt4Ok (l : List Char) : Bool :=
  match pBase l with
  | some (t, '.' :: r) =>
    (match pFrac r with | some [] => dtOk t | _ => false)
  | _ => false

/-- `datetime.strptime(value, "%Y-%m-%d %H:%M:%S")` succeeds (also the
DATETIME coercion rule). -/
def fmt5Ok (l : List Char) : Bool :=
  match pBase l with
  | some (t, []) => dtOk t
  | _ => false

/-- `datetime.strptime(value, "%Y-%m-%d")` succeeds (the DATE coercion
rule). -/
def pDateOk (l : List Char) : Bool :=
  match pY l with
  | some (y, '-' :: r1) =>
    match pMonth r1 with
    | some (m, '-' :: r2) =>
      match pDay r2 with
      | some (d, []) => decide (validDate y m d)
      | _ => false
    | _ => false
  | _ => false

/-- `datetime.strptime(value, "%H:%M:%S")` succeeds (the TIME coercion
rule). -/
def pTimeOk (l : List Char) : Bool :=
  match pHour l with
  | some (h, ':' :: r1) =>
    match pMinute r1 with
    | some (mi, ':' :: r2) =>
      match pSec r2 with
      | some (s, []) => decide (h ≤ 23 ∧ mi ≤ 59 ∧ s ≤ 59)
      | _ => false
    | _ => false
  | _ => false

/-! ## The TIMESTAMP branch

`re.match(r"^\d{4}-\d{2}-\d{2}T\d{2}:\d{2}:\d{2}(?:\.\d+)?(?:Z|[+-]\d{2}:\d{2})?$", value)`
followed by `datetime.fromisoformat(value.replace('Z', '+00:00'))` when the
pattern matches (a `Z` can only occur as the last character of a matching
string), else a chain of strptime fallbacks.  `isoParse` is the pattern
matcher, returning the captured components; `isoCtorOk` is the CPython
3.8-3.10 `fromisoformat` validity on a string of this shape: component
ranges from the `datetime` constructor, a fractional part of exactly 3 or 6
digits, and a zone offset strictly below 24 hours. -/

/-- Components captured by the timestamp ISO regex.  `tz = none` means no
trailing zone; `some (neg, hh, mm)` an explicit offset; the normalized `Z`
becomes `some (false, 0, 0)`. -/
structure IsoTs where
  y : Nat
  m : Nat
  d : Nat
  h : Nat
  mi : Nat
  s : Nat
  fracLen : Nat
  tz : Option (Bool × Nat × Nat)

/-- Count the leading digits of a list, returning the count and the rest. -/
def countDigits : List Char → Nat × List Char
  | c :: r =>
    if c.isDigit then ((countDigits r).1 + 1, (countDigits r).2)
    else (0, c :: r)
  | [] => (0, [])

/-- The `(?:Z|[+-]\d{2}:\d{2})?$` tail of the timestamp regex. -/
def isoTzP : List Char → Option (Option (Bool × Nat × Nat))
  | [] => some none
  | ['Z'] => some (some (false, 0, 0))
  | [c, h1, h2, ':', m1, m2] =>
    if (c == '+' || c == '-') && h1.isDigit && h2.isDigit &&
        m1.isDigit && m2.isDigit then
      some (some (c == '-', dd h1 h2, dd m1 m2))
    else none
  | _ => none

/-- The `(?:\.\d+)?` tail followed by the zone tail (the digit run after the
dot is consumed greedily; a zone never starts with a digit). -/
def isoTailP : List Char → Option (Nat × Option (Bool × Nat × Nat))
  | '.' :: r =>
    if (countDigits r).1 = 0 then none
    else (isoTzP (countDigits r).2).map (fun tz => ((countDigits r).1, tz))
  | l => (isoTzP l).map (fun tz => (0, tz))

/-- Full match of the timestamp ISO regex, returning the components. -/
def isoParse : List Char → Option IsoTs
  | y1 :: y2 :: y3 :: y4 :: '-' :: o1 :: o2 :: '-' :: e1 :: e2 :: 'T' ::
      h1 :: h2 :: ':' :: i1 :: i2 :: ':' :: s1 :: s2 :: rest =>
    if y1.isDigit && y2.isDigit && y3.isDigit && y4.isDigit &&
        o1.isDigit && o2.isDigit && e1.isDigit && e2.isDigit &&
        h1.isDigit && h2.isDigit && i1.isDigit && i2.isDigit &&
        s1.isDigit && s2.isDigit then
      match isoTailP rest with
      | some (fl, tz) =>
        some ⟨d4 y1 y2 y3 y4, dd o1 o2, dd e1 e2, dd h1 h2, dd i1 i2,
          dd s1 s2, fl, tz⟩
      | none => none
    else none
  | _ => none

/-- The `timezone` constructor accepts the parsed offset (its bound is
"strictly between -24h and +24h"; an all-zero offset is `timezone.utc`). -/
def tzOffsetOk : Option (Bool × Nat × Nat) → Bool
  | none => true
  | some (_, hh, mm) => decide (60 * hh + mm < 1440)

/-- `datetime.fromisoformat` (CPython 3.8-3.10) succeeds on the regex-shaped
string with these components: `datetime` constructor ranges, fraction of
exactly 3 or 6 digits, offset strictly below 24 hours. -/
def isoCtorOk (t : IsoTs) : Bool :=
  decide (validDate t.y t.m t.d ∧ t.h ≤ 23 ∧ t.mi ≤ 59 ∧ t.s ≤ 59 ∧
    (t.fracLen = 0 ∨ t.fracLen = 3 ∨ t.fracLen = 6)) && tzOffsetOk t.tz

/-- The strptime fallback chain entered on the first `ValueError`. -/
def tsFallback (l : List Char) : Bool := fmt3Ok l || fmt4Ok l || fmt5Ok l

/-- The TIMESTAMP branch of `validate_type`, on a string: try ISO when the
regex matches (else the `.%f %Z` format), and on `ValueError` fall back to
`%Z`, then `.%f`, then the bare format. -/
def tsValidate (l : List Char) : Bool :=
  match isoParse l with
  | some t => if isoCtorOk t then true else tsFallback l
  | none => if fmt2Ok l then true else tsFallback l

/-- The spec's reading of the same branch: an ordered fallback chain in
which the first success wins and exhaustion means not coercible. -/
def tsSpecChain (l : List Char) : Bool :=
  (match isoParse l with | some t => isoCtorOk t | none => false) ||
    fmt2Ok l || fmt3Ok l || fmt4Ok l || fmt5Ok l

/-! ## validate_type and validate_data (schema_val.py) -/

/-- The textual coercion class of `validate_type`. -/
def textualTypes : List String := ["STRING", "BYTES", "JSON", "GEOGRAPHY", "INTERVAL"]

/-- The integer coercion class of `validate_type`. -/
def integerTypes : List String :=
  ["INT64", "INTEGER", "INT", "SMALLINT", "BIGINT", "TINYINT", "BYTEINT"]

/-- The decimal coercion class of `validate_type`. -/
def decimalTypes : List String :=
  ["NUMERIC", "DECIMAL", "BIGNUMERIC", "BIGDECIMAL", "FLOAT64"]

/-- The textual forms accepted by the BOOL branch. -/
def boolForms : List String := ["true", "false", "1", "0"]

/-- Every type tag recognized by some branch of `validate_type`. -/
def recognizedTags : List String :=
  textualTypes ++ integerTypes ++ decimalTypes ++
    ["BOOL", "DATE", "DATETIME", "TIME", "TIMESTAMP"]

/-- `schema_val.validate_type(value, field_type)`: can `value` be converted
to the BigQuery type `field_type`?  Branches follow the source dispatch;
the date/time branches fail on non-strings because `strptime` / `re.match`
raise `TypeError` there, which the source catches and turns into `False`.
The trailing `else` returns `False` (unrecognized tag). -/
def validate_type (value : Value) (field_type : String) : Bool :=
  if textualTypes.contains field_type then true
  else if integerTypes.contains field_type then pyIntOk value
  else if decimalTypes.contains field_type then pyFloatOk value
  else if field_type == "BOOL" then boolForms.contains (lowerStr (pyStr value))
  else if field_type == "DATE" then
    (match value with | .str s => pDateOk s.data | _ => false)
  else if field_type == "DATETIME" then
    (match value with | .str s => fmt5Ok s.data | _ => false)
  else if field_type == "TIME" then
    (match value with | .str s => pTimeOk s.data | _ => false)
  else if field_type == "TIMESTAMP" then
    (match value with | .str s => tsValidate s.data | _ => false)
  else false

/-- `SchemaValidation.validate_type` from `df_bq_ingest.py`: identical to
`schema_val.validate_type` except that the trailing `else` executes
`str(value)` (which always succeeds) and falls through to `return True`. -/
def SchemaValidation_validate_type (value : Value) (field_type : String) : Bool :=
  if textualTypes.contains field_type then true
  else if integerTypes.contains field_type then pyIntOk value
  else if decimalTypes.contains field_type then pyFloatOk value
  else if field_type == "BOOL" then boolForms.contains (lowerStr (pyStr value))
  else if field_type == "DATE" then
    (match value with | .str s => pDateOk s.data | _ => false)
  else if field_type == "DATETIME" then
    (match value with | .str s => fmt5Ok s.data | _ => false)
  else if field_type == "TIME" then
    (match value with | .str s => pTimeOk s.data | _ => false)
  else if field_type == "TIMESTAMP" then
    (match value with | .str s => tsValidate s.data | _ => false)
  else true

/-- A BigQuery schema field descriptor: `{"name": ..., "type": ..., "mode": ...}`
with the mode key optional (`field.get('mode', 'NULLABLE')`). -/
structure BQField where
  name : String
  type : String
  mode : Option String

/-- The violations `validate_data` reports by raising
`SchemaValidationException`; the constructor arguments carry the data
interpolated into the source's message strings. -/
inductive SchemaViolation where
  | arityMismatch
  | missingRequiredField (field : String)
  | typeMismatch (field : String) (value : Value) (ftype : String)

/-- The per-field body of `validate_data`'s inner loop: REQUIRED mode with a
null value raises first; then a non-null value failing `validate_type`
raises a type mismatch. -/
def checkField (value : Value) (field : BQField) : Except SchemaViolation Unit :=
  if field.mode.getD "NULLABLE" == "REQUIRED" && isNull value then
    .error (.missingRequiredField field.name)
  else if !isNull value && !validate_type value field.type then
    .error (.typeMismatch field.name value field.type)
  else .ok ()

/-- Fold of `checkField` over `zip(row, schema)`, stopping at the first
violation. -/
def checkFields : List (Value × BQField) → Except SchemaViolation Unit
  | [] => .ok ()
  | (v, f) :: rest =>
    match checkField v f with
    | .ok _ => checkFields rest
    | .error e => .error e

/-- One iteration of `validate_data`'s outer loop: the arity check, then the
per-field checks over `zip(row, schema)`. -/
def validateRow (row : List Value) (schema : List BQField) : Except SchemaViolation Unit :=
  if row.length != schema.length then .error .arityMismatch
  else checkFields (row.zip schema)

/-- `schema_val.validate_data(data, schema)`: validates each row in order,
raising (returning) the first violation found. -/
def validate_data (data : List (List Value)) (schema : List BQField) :
    Except SchemaViolation Unit :=
  match data with
  | [] => .ok ()
  | row :: rest =>
    match validateRow row schema with
    | .ok _ => validate_data rest schema
    | .error e => .error e

/-! ## parse_data and ast.literal_eval

`parse_data` calls `ast.literal_eval(item)` and keeps the item on
`except (ValueError, SyntaxError)`.  `literal_eval` first compiles the whole
string (any syntax problem is a `SyntaxError`), then converts the AST
bottom-up; a non-literal node gives `ValueError`, and building a dict or a
set whose key/element is unhashable gives `TypeError` - which `parse_data`
does NOT catch.  The model therefore parses the literal grammar first
(failure = the caught `ValueError`/`SyntaxError` class) and then performs
the hashability walk (failure = the uncaught `TypeError`).

Model scope (documented deviations, all on the success/not-reached side of
every claim): ASCII text; no triple-quoted/prefixed (r, b, f) string
literals, no complex literals, no `Ellipsis`, no `set()` call form -
inputs using them are classified as the caught failure; whitespace between
tokens is treated uniformly (CPython restricts bare newlines to bracketed
contexts); expression syntax beyond the literal grammar (names, calls,
general operators) is also classified as the caught failure, matching the
`ValueError` such nodes produce when converted. -/

/-- How `ast.literal_eval` fails: `caught` is the `ValueError`/`SyntaxError`
class that `parse_data` handles, `typeErr` the uncaught `TypeError`. -/
inductive LitFail where
  | caught
  | typeErr

/-- Identifier continuation character. -/
def isIdentChar (c : Char) : Bool := c.isAlphanum || c == '_'

/-- Skip (ASCII) whitespace between tokens. -/
def skipWsL (l : List Char) : List Char := l.dropWhile isPySpace

/-- Hexadecimal digit. -/
def isHexDigit (c : Char) : Bool :=
  c.isDigit || ('a' ≤ c ∧ c ≤ 'f') || ('A' ≤ c ∧ c ≤ 'F')

/-- Octal digit. -/
def isOctDigit (c : Char) : Bool := '0' ≤ c ∧ c ≤ '7'

/-- Binary digit. -/
def isBinDigit (c : Char) : Bool := c == '0' || c == '1'

/-- Digit value in bases up to 16. -/
def digitVal (c : Char) : Nat :=
  if c.isDigit then d1 c
  else if 'a' ≤ c ∧ c ≤ 'f' then c.toNat - 87
  else c.toNat - 55

/-- Value of a digit run (underscores skipped) in the given base. -/
def natOfBase (base : Nat) (l : List Char) : Nat :=
  (l.filter (fun c => c != '_')).foldl (fun acc c => base * acc + digitVal c) 0

/-- A digit run of the given class with single underscores between digits:
the tail after the first digit. -/
def runURest (p : Char → Bool) : List Char → Bool
  | [] => true
  | '_' :: c :: r => p c && runURest p r
  | '_' :: [] => false
  | c :: r => p c && runURest p r

/-- A nonempty digit run of the given class with single underscores. -/
def runU (p : Char → Bool) : List Char → Bool
  | [] => false
  | c :: r => p c && runURest p r

/-- A radix-literal body (after `0x`/`0o`/`0b`): Python also allows one
underscore right after the prefix. -/
def radixBody (p : Char → Bool) (l : List Char) : Bool :=
  match l with
  | '_' :: r => runU p r
  | _ => runU p l

/-- Exponent part of a float literal: `e`/`E`, optional sign, digit run. -/
def expPartOk : List Char → Bool
  | c :: r =>
    (c == 'e' || c == 'E') &&
      (match r with
       | '+' :: r2 => runU Char.isDigit r2
       | '-' :: r2 => runU Char.isDigit r2
       | r2 => runU Char.isDigit r2)
  | [] => false

/-- Length of the exponent part (only meaningful when `expPartOk`). -/
def expPartLen : List Char → Nat
  | _ :: ('+' :: r2) => 2 + (runLen r2)
  | _ :: ('-' :: r2) => 2 + (runLen r2)
  | _ :: r2 => 1 + (runLen r2)
  | [] => 0
where runLen (l : List Char) : Nat :=
  (l.takeWhile (fun c => c.isDigit || c == '_')).length

/-- Leading-zero rule for a decimal int literal: a run starting with `0`
may contain only zeros. -/
def decIntZeros : List Char → Bool
  | '0' :: r => r.all (fun c => c == '0' || c == '_')
  | _ => true

/-- Lex one unsigned numeric literal (int in any base, or float), returning
the value and the rest.  A float value carries the consumed text as its
repr payload. -/
def lexNumber (l : List Char) : Option (Value × List Char) :=
  let numClass : Char → Bool := fun c => c.isDigit || c == '_'
  let radix : Char → (Char → Bool) → Nat → Option (Value × List Char) :=
    fun _ p base =>
      match l with
      | _ :: _ :: r =>
        let tok := r.takeWhile (fun c => p c || c == '_')
        if radixBody p tok then
          some (.int (natOfBase base tok), r.dropWhile (fun c => p c || c == '_'))
        else none
      | _ => none
  match l with
  | '0' :: c :: _ =>
    if c == 'x' || c == 'X' then radix c isHexDigit 16
    else if c == 'o' || c == 'O' then radix c isOctDigit 8
    else if c == 'b' || c == 'B' then radix c isBinDigit 2
    else
      lexDec l numClass
  | _ => lexDec l numClass
where lexDec (l : List Char) (numClass : Char → Bool) :
    Option (Value × List Char) :=
  let ip := l.takeWhile numClass
  let r1 := l.dropWhile numClass
  match r1 with
  | '.' :: r2 =>
    let fp := r2.takeWhile numClass
    let r3 := r2.dropWhile numClass
    let ipOk := ip.isEmpty || runU Char.isDigit ip
    let fpOk := fp.isEmpty || runU Char.isDigit fp
    if ipOk && fpOk && !(ip.isEmpty && fp.isEmpty) then
      if expPartOk r3 then
        let consumed := ip.length + 1 + fp.length + expPartLen r3
        some (.float ⟨l.take consumed⟩, l.drop consumed)
      else
        let consumed := ip.length + 1 + fp.length
        some (.float ⟨l.take consumed⟩, l.drop consumed)
    else none
  | _ =>
    if runU Char.isDigit ip then
      if expPartOk r1 then
        let consumed := ip.length + expPartLen r1
        some (.float ⟨l.take consumed⟩, l.drop consumed)
      else if decIntZeros ip then some (.int (natOfBase 10 ip), r1)
      else none
    else none

/-- Decode one escape sequence (the char after the backslash): common
single-char escapes are decoded, a backslash-newline disappears (line
continuation), and an unrecognized escape keeps the backslash, as CPython
does. -/
def escChars (c : Char) : List Char :=
  if c == 'n' then ['\n']
  else if c == 't' then ['\t']
  else if c == 'r' then ['\r']
  else if c == '\\' then ['\\']
  else if c == '\'' then ['\'']
  else if c == '"' then ['"']
  else if c == '\n' then []
  else ['\\', c]

/-- Body of a single-line string literal after its opening quote `q`:
decoded characters and the rest after the closing quote.  A bare newline or
the end of input inside the literal is the unterminated-string
`SyntaxError`. -/
def lexStrBody (q : Char) : List Char → Option (List Char × List Char)
  | [] => none
  | '\\' :: c :: r =>
    match lexStrBody q r with
    | some (body, rest) => some (escChars c ++ body, rest)
    | none => none
  | '\\' :: [] => none
  | c :: r =>
    if c == q then some ([], r)
    else if c == '\n' then none
    else
      match lexStrBody q r with
      | some (body, rest) => some (c :: body, rest)
      | none => none

mutual

/-- Python hashability of a literal value: containers other than tuples are
unhashable; a tuple is hashable iff all its elements are. -/
def isHashable : Value → Bool
  | .list _ => false
  | .setv _ => false
  | .dict _ => false
  | .tuple vs => isHashableList vs
  | _ => true

/-- All elements hashable. -/
def isHashableList : List Value → Bool
  | [] => true
  | v :: vs => isHashable v && isHashableList vs

end

mutual

/-- The conversion walk of `literal_eval` succeeds on this tree: every dict
key and set element is hashable (a hashable value cannot itself contain a
dict or set, so only list/tuple elements and dict values recurse). -/
def hashOkTree : Value → Bool
  | .list vs => hashOkTreeList vs
  | .tuple vs => hashOkTreeList vs
  | .setv vs => isHashableList vs
  | .dict es => hashOkTreeEntries es
  | _ => true

/-- `hashOkTree` over list elements. -/
def hashOkTreeList : List Value → Bool
  | [] => true
  | v :: vs => hashOkTree v && hashOkTreeList vs

/-- `hashOkTree` over dict entries. -/
def hashOkTreeEntries : List (Value × Value) → Bool
  | [] => true
  | (k, v) :: es => isHashable k && hashOkTree v && hashOkTreeEntries es

end

/-- Keyword boundary: the keyword must not be followed by an identifier
character. -/
def identBoundary : List Char → Bool
  | [] => true
  | c :: _ => !isIdentChar c

mutual

/-- Syntax phase of the `literal_eval` model: parse one literal expression,
returning the value and the rest.  Grammar failure is the caught
`ValueError`/`SyntaxError` class.  `fuel` only bounds recursion depth; it is
chosen large enough at the top entry. -/
def parseVal : Nat → List Char → Option (Value × List Char)
  | 0, _ => none
  | fuel + 1, l =>
    match skipWsL l with
    | [] => none
    | '[' :: r =>
      (match skipWsL r with
       | ']' :: r2 => some (.list [], r2)
       | r1 =>
         match parseVal fuel r1 with
         | some (v, r2) =>
           (match parseElems fuel ']' [v] r2 with
            | some (vs, r3) => some (.list vs, r3)
            | none => none)
         | none => none)
    | '(' :: r =>
      (match skipWsL r with
       | ')' :: r2 => some (.tuple [], r2)
       | r1 =>
         match parseVal fuel r1 with
         | some (v, r2) =>
           (match skipWsL r2 with
            | ')' :: r3 => some (v, r3)
            | ',' :: r3 =>
              (match skipWsL r3 with
               | ')' :: r4 => some (.tuple [v], r4)
               | r4 =>
                 match parseVal fuel r4 with
                 | some (w, r5) =>
                   (match parseElems fuel ')' [v, w] r5 with
                    | some (vs, r6) => some (.tuple vs, r6)
                    | none => none)
                 | none => none)
            | _ => none)
         | none => none)
    | '\x7b' :: r =>
      (match skipWsL r with
       | '\x7d' :: r2 => some (.dict [], r2)
       | r1 =>
         match parseVal fuel r1 with
         | some (k, r2) =>
           (match skipWsL r2 with
            | ':' :: r3 =>
              (match parseVal fuel r3 with
               | some (v, r4) =>
                 (match parseEntries fuel [(k, v)] r4 with
                  | some (es, r5) => some (.dict es, r5)
                  | none => none)
               | none => none)
            | r2w =>
              (match parseElems fuel '\x7d' [k] r2w with
               | some (vs, r3) => some (.setv vs, r3)
               | none => none))
         | none => none)
    | '\'' :: _ =>
      (match parseStrs fuel [] (skipWsL l) with
       | some (cs, r) => some (.str ⟨cs⟩, r)
       | none => none)
    | '"' :: _ =>
      (match parseStrs fuel [] (skipWsL l) with
       | some (cs, r) => some (.str ⟨cs⟩, r)
       | none => none)
    | '+' :: r => lexNumber (skipWsL r)
    | '-' :: r =>
      (match lexNumber (skipWsL r) with
       | some (.int n, rest) => some (.int (-n), rest)
       | some (.float fr, rest) => some (.float ("-" ++ fr), rest)
       | _ => none)
    | 'N' :: 'o' :: 'n' :: 'e' :: r =>
      if identBoundary r then some (.null, r) else none
    | 'T' :: 'r' :: 'u' :: 'e' :: r =>
      if identBoundary r then some (.bool true, r) else none
    | 'F' :: 'a' :: 'l' :: 's' :: 'e' :: r =>
      if identBoundary r then some (.bool false, r) else none
    | c :: _ =>
      if c.isDigit || c == '.' then lexNumber (skipWsL l)
      else none

/-- Remaining elements of a bracketed sequence after the first, up to the
closing bracket; allows a trailing comma. -/
def parseElems : Nat → Char → List Value → List Char → Option (List Value × List Char)
  | 0, _, _, _ => none
  | fuel + 1, close, acc, l =>
    match skipWsL l with
    | [] => none
    | c :: r =>
      if c == close then some (acc, r)
      else if c == ',' then
        match skipWsL r with
        | [] => none
        | d :: r2 =>
          if d == close then some (acc, r2)
          else
            match parseVal fuel (d :: r2) with
            | some (v, r3) => parseElems fuel close (acc ++ [v]) r3
            | none => none
      else none

/-- Remaining `key: value` entries of a dict literal after the first, up to
the closing brace; allows a trailing comma. -/
def parseEntries : Nat → List (Value × Value) → List Char → Option (List (Value × Value) × List Char)
  | 0, _, _ => none
  | fuel + 1, acc, l =>
    match skipWsL l with
    | '\x7d' :: r => some (acc, r)
    | ',' :: r =>
      (match skipWsL r with
       | '\x7d' :: r2 => some (acc, r2)
       | r1 =>
         match parseVal fuel r1 with
         | some (k, r2) =>
           (match skipWsL r2 with
            | ':' :: r3 =>
              (match parseVal fuel r3 with
               | some (v, r4) => parseEntries fuel (acc ++ [(k, v)]) r4
               | none => none)
            | _ => none)
         | none => none)
    | _ => none

/-- One or more adjacent string literals (implicit concatenation),
accumulating the decoded characters. -/
def parseStrs : Nat → List Char → List Char → Option (List Char × List Char)
  | 0, _, _ => none
  | fuel + 1, acc, l =>
    match l with
    | q :: r =>
      if q == '\'' || q == '"' then
        match lexStrBody q r with
        | some (body, rest) =>
          (match skipWsL rest with
           | q2 :: r2 =>
             if q2 == '\'' || q2 == '"' then
               parseStrs fuel (acc ++ body) (q2 :: r2)
             else some (acc ++ body, rest)
           | [] => some (acc ++ body, rest))
        | none => none
      else some (acc, l)
    | [] => some (acc, l)

end

/-- The failure-classified `ast.literal_eval` on a string: parse the whole
string (leading blanks/tabs are stripped by `literal_eval` itself, trailing
whitespace is accepted by eval-mode compilation), then run the conversion
walk, whose only failure is the uncaught `TypeError` on an unhashable dict
key or set element. -/
def litEval (s : String) : Except LitFail Value :=
  match parseVal (2 * s.length + 8) s.data with
  | none => .error .caught
  | some (v, rest) =>
    if (skipWsL rest).isEmpty then
      if hashOkTree v then .ok v else .error .typeErr
    else .error .caught

/-- One item of `parse_data`'s inner loop: `ast.literal_eval(item)` with
`except (ValueError, SyntaxError)` keeping the item.  A non-string item
makes `literal_eval` raise the caught `ValueError` (its AST conversion
rejects it), so the item is kept.  `none` models an uncaught exception
(the `TypeError` class) escaping `parse_data`. -/
def parse_item : Value → Option Value
  | .str s =>
    (match litEval s with
     | .ok v => some v
     | .error .caught => some (.str s)
     | .error .typeErr => none)
  | v => some v

/-- One row of `parse_data`. -/
def parse_row (row : List Value) : Option (List Value) :=
  row.mapM parse_item

/-- `schema_val.parse_data(data)`: best-effort literal decoding of every
item of every row; `none` models the uncaught `TypeError`. -/
def parse_data (data : List (List Value)) : Option (List (List Value)) :=
  data.mapM parse_row

/-! ## convert_to_dict_format -/

/-- One insertion into a Python dict: an existing key is updated in place
(its position kept), a new key is appended. -/
def pyDictInsert (m : List (String × Value)) (k : String) (v : Value) :
    List (String × Value) :=
  if m.any (fun p => p.1 == k) then
    m.map (fun p => if p.1 == k then (k, v) else p)
  else m ++ [(k, v)]

/-- Building a Python dict from a pair sequence, left to right. -/
def dictBuild : List (String × Value) → List (String × Value) → List (String × Value)
  | acc, [] => acc
  | acc, (k, v) :: rest => dictBuild (pyDictInsert acc k v) rest

/-- The dict comprehension `{col_name: value for col_name, value in
zip(column_names, row)}`. -/
def dictOfRow (column_names : List String) (row : List Value) :
    List (String × Value) :=
  dictBuild [] (column_names.zip row)

/-- `schema_val.convert_to_dict_format(data, column_names)` (the body of
`FormatToBqRow.process` in `df_bq_ingest.py` is the same comprehension). -/
def convert_to_dict_format (data : List (List Value)) (column_names : List String) :
    List (List (String × Value)) :=
  data.map (dictOfRow column_names)

/-! ## Specification-side definitions

Definitions below follow the spec's (or, for the amended DATE rule, the
corrected spec's) words rather than the source, to be compared with the
source-derived definitions above: `tsSpecChain` (already above, next to the
branch it reads), `specDateExact`, `specDateAmended`. -/

/-- The spec's DATE rule read literally: exactly `YYYY-MM-DD` - four
digits, dash, two digits, dash, two digits - denoting a valid calendar
date. -/
def specDateExact : List Char → Bool
  | [a, b, c, d, '-', e, f, '-', g, h] =>
    a.isDigit && b.isDigit && c.isDigit && d.isDigit && e.isDigit && f.isDigit &&
      g.isDigit && h.isDigit && decide (validDate (d4 a b c d) (dd e f) (dd g h))
  | _ => false

/-- Two-digit month field, value 1-12 (zero-padding optional in the
amended rule). -/
def monthTwo (a b : Char) : Bool :=
  a.isDigit && b.isDigit && decide (1 ≤ dd a b ∧ dd a b ≤ 12)

/-- One-digit month field, value 1-9. -/
def monthOne (a : Char) : Bool := a.isDigit && decide (1 ≤ d1 a)

/-- Two-character day field: two digits with value 1-31, or a blank
followed by a digit 1-9. -/
def dayTwo (a b : Char) : Bool :=
  (a.isDigit && b.isDigit && decide (1 ≤ dd a b ∧ dd a b ≤ 31)) ||
    (a == ' ' && b.isDigit && decide (1 ≤ d1 b))

/-- Value of a two-character day field. -/
def dayTwoVal (a b : Char) : Nat := if a == ' ' then d1 b else dd a b

/-- One-digit day field, value 1-9. -/
def dayOne (a : Char) : Bool := a.isDigit && decide (1 ≤ d1 a)

/-- Four-digit year field. -/
def yearFour (a b c d : Char) : Bool :=
  a.isDigit && b.isDigit && c.isDigit && d.isDigit

/-- The amended DATE rule: `year-month-day` where the year has exactly four
digits, the month is one or two digits with value 1-12, the day is one or
two digits (optionally zero- or blank-padded) with value 1-31, and the
triple is a valid calendar date. -/
def specDateAmended : List Char → Bool
  | [a, b, c, d, e, f, g, h, i, j] =>
    yearFour a b c d && (e == '-') && monthTwo f g && (h == '-') && dayTwo i j &&
      decide (validDate (d4 a b c d) (dd f g) (dayTwoVal i j))
  | [a, b, c, d, e, f, g, h, i] =>
    yearFour a b c d && (e == '-') &&
      (((h == '-') && monthTwo f g && dayOne i &&
          decide (validDate (d4 a b c d) (dd f g) (d1 i))) ||
        ((g == '-') && monthOne f && dayTwo h i &&
          decide (validDate (d4 a b c d) (d1 f) (dayTwoVal h i))))
  | [a, b, c, d, e, f, g, h] =>
    yearFour a b c d && (e == '-') && (g == '-') && monthOne f && dayOne h &&
      decide (validDate (d4 a b c d) (d1 f) (d1 h))
  | _ => false

theorem digit_not_space {c : Char} (h : c.isDigit = true) : isPySpace c = false := by
  by_contra hs
  rw [Bool.not_eq_false] at hs
  unfold isPySpace at hs
  rcases Bool.or_eq_true_iff.mp hs with hs' | h6
  rcases Bool.or_eq_true_iff.mp hs' with hs' | h5
  rcases Bool.or_eq_true_iff.mp hs' with hs' | h4
  rcases Bool.or_eq_true_iff.mp hs' with hs' | h3
  rcases Bool.or_eq_true_iff.mp hs' with h1 | h2
  · rw [eq_of_beq h1] at h; exact absurd h (by decide)
  · rw [eq_of_beq h2] at h; exact absurd h (by decide)
  · rw [eq_of_beq h3] at h; exact absurd h (by decide)
  · rw [eq_of_beq h4] at h; exact absurd h (by decide)
  · rw [eq_of_beq h5] at h; exact absurd h (by decide)
  · rw [eq_of_beq h6] at h; exact absurd h (by decide)

theorem countDigits_mem {l : List Char} {n : Nat} {rest : List Char}
    (h : countDigits l = (n, rest)) :
    ∀ c, c ∈ l → c ∈ rest ∨ c.isDigit = true := by
  induction l generalizing n with
  | nil => intro c hc; exact absurd hc (by simp)
  | cons a r ih =>
    intro c hc
    unfold countDigits at h
    split at h
    · rename_i ha
      simp only [Prod.mk.injEq] at h
      rcases List.mem_cons.mp hc with hcz | hcr
      · exact .inr (hcz ▸ ha)
      · exact ih (by rw [Prod.mk.injEq]; exact ⟨rfl, h.2⟩) c hcr
    · rename_i ha
      simp only [Prod.mk.injEq] at h
      rw [← h.2]
      exact .inl hc

theorem isoTzP_nospace {l : List Char} {tz : Option (Bool × Nat × Nat)}
    (h : isoTzP l = some tz) : ∀ c, c ∈ l → isPySpace c = false := by
  unfold isoTzP at h
  split at h
  · intro c hc; exact absurd hc (by simp)
  · intro c hc
    rcases List.mem_cons.mp hc with hcz | hcr
    · subst hcz; decide
    · exact absurd hcr (by simp)
  · rename_i sg h1 h2 m1 m2
    split at h
    · rename_i hd
      simp only [Bool.and_eq_true, Bool.or_eq_true_iff] at hd
      intro c hc
      simp only [List.mem_cons] at hc
      rcases hc with hc | hc | hc | hc | hc | hc | hc
      · subst hc
        rcases hd.1.1.1.1 with hsg | hsg <;> rw [eq_of_beq hsg] <;> decide
      · subst hc; exact digit_not_space hd.1.1.1.2
      · subst hc; exact digit_not_space hd.1.1.2
      · subst hc; decide
      · subst hc; exact digit_not_space hd.1.2
      · subst hc; exact digit_not_space hd.2
      · exact absurd hc (by simp)
    · exact absurd h (by simp)
  · exact absurd h (by simp)

theorem isoTailP_nospace {l : List Char} {t : Nat × Option (Bool × Nat × Nat)}
    (h : isoTailP l = some t) : ∀ c, c ∈ l → isPySpace c = false := by
  unfold isoTailP at h
  split at h
  · rename_i r
    split at h
    · exact absurd h (by simp)
    · cases htz : isoTzP (countDigits r).2 with
      | none => rw [htz] at h; exact absurd h (by simp)
      | some tz =>
        intro c hc
        rcases List.mem_cons.mp hc with hcz | hcr
        · subst hcz; decide
        · rcases countDigits_mem rfl c hcr with hin | hdig
          · exact isoTzP_nospace htz c hin
          · exact digit_not_space hdig
  · cases htz : isoTzP l with
    | none => rw [htz] at h; exact absurd h (by simp)
    | some tz => exact isoTzP_nospace htz

theorem isoParse_nospace {l : List Char} {t : IsoTs}
    (h : isoParse l = some t) : ∀ c, c ∈ l → isPySpace c = false := by
  unfold isoParse at h
  split at h
  · rename_i y1 y2 y3 y4 o1 o2 e1 e2 h1 h2 i1 i2 s1 s2 rest
    split at h
    · rename_i hd
      simp only [Bool.and_eq_true] at hd
      obtain ⟨⟨⟨⟨⟨⟨⟨⟨⟨⟨⟨⟨⟨q1, q2⟩, q3⟩, q4⟩, q5⟩, q6⟩, q7⟩, q8⟩, q9⟩, q10⟩, q11⟩, q12⟩, q13⟩, q14⟩ := hd
      cases htl : isoTailP rest with
      | none => rw [htl] at h; exact absurd h (by simp)
      | some tl =>
        intro c hc
        simp only [List.mem_cons] at hc
        rcases hc with hc | hc | hc | hc | hc | hc | hc | hc | hc | hc | hc |
          hc | hc | hc | hc | hc | hc | hc | hc | hc
        · subst hc; exact digit_not_space q1
        · subst hc; exact digit_not_space q2
        · subst hc; exact digit_not_space q3
        · subst hc; exact digit_not_space q4
        · subst hc; decide
        · subst hc; exact digit_not_space q5
        · subst hc; exact digit_not_space q6
        · subst hc; decide
        · subst hc; exact digit_not_space q7
        · subst hc; exact digit_not_space q8
        · subst hc; decide
        · subst hc; exact digit_not_space q9
        · subst hc; exact digit_not_space q10
        · subst hc; decide
        · subst hc; exact digit_not_space q11
        · subst hc; exact digit_not_space q12
        · subst hc; decide
        · subst hc; exact digit_not_space q13
        · subst hc; exact digit_not_space q14
        · exact isoTailP_nospace htl c hc
    · exact absurd h (by simp)
  · exact absurd h (by simp)

theorem pY_some {l : List Char} {y : Nat} {r : List Char} (h : pY l = some (y, r)) :
    ∃ a b c d, l = a :: b :: c :: d :: r ∧ a.isDigit = true ∧ b.isDigit = true ∧
      c.isDigit = true ∧ d.isDigit = true ∧ y = d4 a b c d := by
  unfold pY at h
  split at h
  · rename_i a b c d r'
    split at h
    · rename_i hd
      simp only [Option.some.injEq, Prod.mk.injEq] at h
      obtain ⟨hy, hr⟩ := h
      subst hr
      simp only [Bool.and_eq_true] at hd
      exact ⟨a, b, c, d, rfl, hd.1.1.1, hd.1.1.2, hd.1.2, hd.2, hy.symm⟩
    · exact absurd h (by simp)
  · exact absurd h (by simp)

theorem pMonth_some {l : List Char} {m : Nat} {r : List Char} (h : pMonth l = some (m, r)) :
    (∃ a b, l = a :: b :: r ∧ a.isDigit = true ∧ b.isDigit = true ∧
      1 ≤ dd a b ∧ dd a b ≤ 12 ∧ m = dd a b) ∨
    (∃ a, l = a :: r ∧ a.isDigit = true ∧ 1 ≤ d1 a ∧ m = d1 a) := by
  unfold pMonth at h
  split at h
  · rename_i a b r'
    split at h
    · rename_i hd
      split at h
      · rename_i hrange
        simp only [Option.some.injEq, Prod.mk.injEq] at h
        obtain ⟨hm, hr⟩ := h
        subst hr
        simp only [Bool.and_eq_true] at hd
        exact .inl ⟨a, b, rfl, hd.1, hd.2, hrange.1, hrange.2, hm.symm⟩
      · exact absurd h (by simp)
    · rename_i hd
      split at h
      · rename_i ha
        split at h
        · rename_i hrange
          simp only [Option.some.injEq, Prod.mk.injEq] at h
          obtain ⟨hm, hr⟩ := h
          subst hr
          exact .inr ⟨a, rfl, ha, hrange, hm.symm⟩
        · exact absurd h (by simp)
      · exact absurd h (by simp)
  · rename_i a
    split at h
    · rename_i hc
      simp only [Option.some.injEq, Prod.mk.injEq] at h
      obtain ⟨hm, hr⟩ := h
      subst hr
      exact .inr ⟨a, rfl, hc.1, hc.2, hm.symm⟩
    · exact absurd h (by simp)
  · exact absurd h (by simp)

theorem pDay_some {l : List Char} {d : Nat} {r : List Char} (h : pDay l = some (d, r)) :
    (∃ a b, l = a :: b :: r ∧ a.isDigit = true ∧ b.isDigit = true ∧
      1 ≤ dd a b ∧ dd a b ≤ 31 ∧ d = dd a b) ∨
    (∃ a, l = a :: r ∧ a.isDigit = true ∧ 1 ≤ d1 a ∧ d = d1 a) ∨
    (∃ b, l = ' ' :: b :: r ∧ b.isDigit = true ∧ 1 ≤ d1 b ∧ d = d1 b) := by
  unfold pDay at h
  split at h
  · rename_i a b r'
    split at h
    · rename_i hd
      split at h
      · rename_i hrange
        simp only [Option.some.injEq, Prod.mk.injEq] at h
        obtain ⟨hm, hr⟩ := h
        subst hr
        simp only [Bool.and_eq_true] at hd
        exact .inl ⟨a, b, rfl, hd.1, hd.2, hrange.1, hrange.2, hm.symm⟩
      · exact absurd h (by simp)
    · rename_i hd
      split at h
      · rename_i ha
        split at h
        · rename_i hrange
          simp only [Option.some.injEq, Prod.mk.injEq] at h
          obtain ⟨hm, hr⟩ := h
          subst hr
          exact .inr (.inl ⟨a, rfl, ha, hrange, hm.symm⟩)
        · exact absurd h (by simp)
      · rename_i ha
        split at h
        · rename_i hsp
          split at h
          · rename_i hb
            simp only [Option.some.injEq, Prod.mk.injEq] at h
            obtain ⟨hm, hr⟩ := h
            subst hr
            exact .inr (.inr ⟨b, by rw [eq_of_beq hsp], hb.1, hb.2, hm.symm⟩)
          · exact absurd h (by simp)
        · exact absurd h (by simp)
  · rename_i a
    split at h
    · rename_i hc
      simp only [Option.some.injEq, Prod.mk.injEq] at h
      obtain ⟨hm, hr⟩ := h
      subst hr
      exact .inr (.inl ⟨a, rfl, hc.1, hc.2, hm.symm⟩)
    · exact absurd h (by simp)
  · exact absurd h (by simp)

theorem pWs1_space {l r : List Char} (h : pWs1 l = some r) :
    ∃ c, c ∈ l ∧ isPySpace c = true := by
  unfold pWs1 at h
  split at h
  · rename_i c rr
    split at h
    · rename_i hs
      exact ⟨c, List.mem_cons_self c rr, hs⟩
    · exact absurd h (by simp)
  · exact absurd h (by simp)

theorem pBase_space {l : List Char} {x : DT × List Char} (h : pBase l = some x) :
    ∃ c, c ∈ l ∧ isPySpace c = true := by
  unfold pBase at h
  split at h
  · rename_i y r1 hY
    split at h
    · rename_i m r2 hM
      split at h
      · rename_i d r3 hD
        split at h
        · rename_i r4 hW
          obtain ⟨c, hc, hcs⟩ := pWs1_space hW
          have hc2 : c ∈ r2 := by
            rcases pDay_some hD with ⟨a, b, he, _⟩ | ⟨a, he, _⟩ | ⟨b, he, _⟩ <;>
              subst he <;> simp [List.mem_cons, hc]
          have hc1 : c ∈ r1 := by
            rcases pMonth_some hM with ⟨a, b, he, _⟩ | ⟨a, he, _⟩ <;>
              subst he <;> simp [List.mem_cons, hc2]
          obtain ⟨a, b, cc, dd', he, _⟩ := pY_some hY
          subst he
          exact ⟨c, by simp [List.mem_cons, hc1], hcs⟩
        · exact absurd h (by simp)
      · exact absurd h (by simp)
    · exact absurd h (by simp)
  · exact absurd h (by simp)

theorem fmt2_pBase {l : List Char} (h : fmt2Ok l = true) :
    ∃ x, pBase l = some x := by
  unfold fmt2Ok at h
  split at h
  · rename_i t r hB
    exact ⟨_, hB⟩
  · exact absurd h (by simp)

theorem fmt2_false_of_iso {l : List Char} {t : IsoTs} (h : isoParse l = some t) :
    fmt2Ok l = false := by
  by_contra hf
  rw [Bool.not_eq_false] at hf
  obtain ⟨x, hx⟩ := fmt2_pBase hf
  obtain ⟨c, hc, hcs⟩ := pBase_space hx
  rw [isoParse_nospace h c hc] at hcs
  exact absurd hcs (by simp)

theorem ts_eq_chain (l : List Char) : tsValidate l = tsSpecChain l := by
  unfold tsValidate tsSpecChain
  cases hi : isoParse l with
  | none =>
    cases h2 : fmt2Ok l <;> simp [tsFallback]
  | some t =>
    rw [fmt2_false_of_iso hi]
    cases hk : isoCtorOk t <;> simp [tsFallback, Bool.or_assoc]

theorem digit_nbeq_space {c : Char} (h : c.isDigit = true) : (c == ' ') = false := by
  by_contra hs
  rw [Bool.not_eq_false] at hs
  rw [eq_of_beq hs] at h
  exact absurd h (by decide)

theorem pDate_spec_of_ok {l : List Char} (h : pDateOk l = true) :
    specDateAmended l = true := by
  unfold pDateOk at h
  split at h
  · rename_i y r1 hY
    split at h
    · rename_i m r2 hM
      split at h
      · rename_i d hD
        replace h := of_decide_eq_true h
        obtain ⟨a, b, c, d4c, hl, ha, hb, hc, hd4, hy⟩ := pY_some hY
        subst hl hy
        rcases pMonth_some hM with ⟨f, g, hr1, hf, hg, hm1, hm2, hmv⟩ |
            ⟨f, hr1, hf, hm1, hmv⟩
        · subst hr1 hmv
          rcases pDay_some hD with ⟨i, j, hr2, hi, hj, hdl, hdh, hdv⟩ |
              ⟨i, hr2, hi, hdl, hdv⟩ | ⟨j, hr2, hj, hdl, hdv⟩ <;> subst hr2 hdv
          · simp [specDateAmended, yearFour, monthTwo, dayTwo, dayTwoVal,
              ha, hb, hc, hd4, hf, hg, hi, hj, hm1, hm2, hdl, hdh, h,
              digit_nbeq_space hi]
          · simp [specDateAmended, yearFour, monthTwo, dayOne,
              ha, hb, hc, hd4, hf, hg, hi, hm1, hm2, hdl, h]
          · simp [specDateAmended, yearFour, monthTwo, dayTwo, dayTwoVal,
              ha, hb, hc, hd4, hf, hg, hj, hm1, hm2, hdl, h]
        · subst hr1 hmv
          rcases pDay_some hD with ⟨i, j, hr2, hi, hj, hdl, hdh, hdv⟩ |
              ⟨i, hr2, hi, hdl, hdv⟩ | ⟨j, hr2, hj, hdl, hdv⟩ <;> subst hr2 hdv
          · simp [specDateAmended, yearFour, monthOne, dayTwo, dayTwoVal,
              ha, hb, hc, hd4, hf, hi, hj, hm1, hdl, hdh, h,
              digit_nbeq_space hi]
          · simp [specDateAmended, yearFour, monthOne, dayOne,
              ha, hb, hc, hd4, hf, hi, hm1, hdl, h]
          · simp [specDateAmended, yearFour, monthOne, dayTwo, dayTwoVal,
              ha, hb, hc, hd4, hf, hj, hm1, hdl, h]
      · exact absurd h (by simp)
    · exact absurd h (by simp)
  · exact absurd h (by simp)

theorem pDate_ok_of_spec {l : List Char} (h : specDateAmended l = true) :
    pDateOk l = true := by
  unfold specDateAmended at h
  split at h
  · rename_i a b c d e f g hh i j
    simp only [yearFour, monthTwo, dayTwo, dayTwoVal, Bool.and_eq_true,
      decide_eq_true_eq] at h
    obtain ⟨⟨⟨⟨⟨⟨ha, hb⟩, hc⟩, hd⟩, he⟩, hrest⟩, hvalid⟩ := h
    obtain rfl := eq_of_beq hc
    obtain rfl := eq_of_beq he
    have hY : pY [a, b, c, d, '-', f, g, '-', i, j] =
        some (d4 a b c d, ['-', f, g, '-', i, j]) := by
      simp [pY, ha.1.1, ha.1.2, ha.2, hb]
    have hM : pMonth [f, g, '-', i, j] = some (dd f g, ['-', i, j]) := by
      simp [pMonth, hd.1.1, hd.1.2, hd.2.1, hd.2.2]
    rcases Bool.or_eq_true_iff.mp hrest with hday | hday
    · simp only [Bool.and_eq_true, decide_eq_true_eq] at hday
      obtain ⟨⟨hi, hj⟩, hq1, hq2⟩ := hday
      simp only [digit_nbeq_space hi, if_false, Bool.false_eq_true] at hvalid
      have hD : pDay [i, j] = some (dd i j, []) := by
        simp [pDay, hi, hj, hq1, hq2]
      simp [pDateOk, hY, hM, hD, hvalid]
    · simp only [Bool.and_eq_true, decide_eq_true_eq] at hday
      obtain ⟨⟨hsp, hj⟩, hq1⟩ := hday
      obtain rfl := eq_of_beq hsp
      simp only [beq_self_eq_true, if_true] at hvalid
      have hD : pDay [' ', j] = some (d1 j, []) := by
        simp [pDay, hj, hq1]
      simp [pDateOk, hY, hM, hD, hvalid]
  · rename_i a b c d e f g hh i
    simp only [yearFour, monthTwo, monthOne, dayTwo, dayOne, dayTwoVal,
      Bool.and_eq_true, decide_eq_true_eq] at h
    obtain ⟨⟨⟨⟨⟨ha1, ha2⟩, ha3⟩, ha4⟩, he⟩, hrest⟩ := h
    obtain rfl := eq_of_beq he
    rcases Bool.or_eq_true_iff.mp hrest with hcase | hcase
    · simp only [Bool.and_eq_true, decide_eq_true_eq] at hcase
      obtain ⟨⟨⟨hhh, ⟨hf, hg⟩, hq1, hq2⟩, hi, hi1⟩, hvalid⟩ := hcase
      obtain rfl := eq_of_beq hhh
      have hY : pY [a, b, c, d, '-', f, g, '-', i] =
          some (d4 a b c d, ['-', f, g, '-', i]) := by
        simp [pY, ha1, ha2, ha3, ha4]
      have hM : pMonth [f, g, '-', i] = some (dd f g, ['-', i]) := by
        simp [pMonth, hf, hg, hq1, hq2]
      have hD : pDay [i] = some (d1 i, []) := by
        simp [pDay, hi, hi1]
      simp [pDateOk, hY, hM, hD, hvalid]
    · simp only [Bool.and_eq_true, decide_eq_true_eq] at hcase
      obtain ⟨⟨⟨hgg, hf, hf1⟩, hday⟩, hvalid⟩ := hcase
      obtain rfl := eq_of_beq hgg
      have hY : pY [a, b, c, d, '-', f, '-', hh, i] =
          some (d4 a b c d, ['-', f, '-', hh, i]) := by
        simp [pY, ha1, ha2, ha3, ha4]
      have hM : pMonth [f, '-', hh, i] = some (d1 f, ['-', hh, i]) := by
        simp [pMonth, hf, hf1]
      rcases Bool.or_eq_true_iff.mp hday with hday2 | hday2
      · simp only [Bool.and_eq_true, decide_eq_true_eq] at hday2
        obtain ⟨⟨hi2, hj2⟩, hq1, hq2⟩ := hday2
        simp only [digit_nbeq_space hi2, if_false, Bool.false_eq_true] at hvalid
        have hD : pDay [hh, i] = some (dd hh i, []) := by
          simp [pDay, hi2, hj2, hq1, hq2]
        simp [pDateOk, hY, hM, hD, hvalid]
      · simp only [Bool.and_eq_true, decide_eq_true_eq] at hday2
        obtain ⟨⟨hsp, hj2⟩, hq1⟩ := hday2
        obtain rfl := eq_of_beq hsp
        simp only [beq_self_eq_true, if_true] at hvalid
        have hD : pDay [' ', i] = some (d1 i, []) := by
          simp [pDay, hj2, hq1]
        simp [pDateOk, hY, hM, hD, hvalid]
  · rename_i a b c d e f g hh
    simp only [yearFour, monthOne, dayOne, Bool.and_eq_true,
      decide_eq_true_eq] at h
    obtain ⟨⟨⟨⟨⟨⟨⟨⟨ha1, ha2⟩, ha3⟩, ha4⟩, he⟩, hg⟩, hf, hf1⟩, hhd, hh1⟩, hvalid⟩ := h
    obtain rfl := eq_of_beq he
    obtain rfl := eq_of_beq hg
    have hY : pY [a, b, c, d, '-', f, '-', hh] =
        some (d4 a b c d, ['-', f, '-', hh]) := by
      simp [pY, ha1, ha2, ha3, ha4]
    have hM : pMonth [f, '-', hh] = some (d1 f, ['-', hh]) := by
      simp [pMonth, hf, hf1]
    have hD : pDay [hh] = some (d1 hh, []) := by
      simp [pDay, hhd, hh1]
    simp [pDateOk, hY, hM, hD, hvalid]
  · exact absurd h (by simp)

theorem pDate_eq_spec (l : List Char) : pDateOk l = specDateAmended l := by
  cases hA : pDateOk l with
  | true => exact (pDate_spec_of_ok hA).symm
  | false =>
    cases hB : specDateAmended l with
    | false => rfl
    | true => rw [pDate_ok_of_spec hB] at hA; exact absurd hA (by simp)
theorem validate_type_unrecognized {v : Value} {ft : String}
    (h : recognizedTags.contains ft = false) : validate_type v ft = false := by
  simp [recognizedTags, textualTypes, integerTypes, decimalTypes,
    List.contains_iff_exists_mem_beq] at h
  simp [validate_type, textualTypes, integerTypes, decimalTypes, h]

theorem pyDictInsert_fresh {m : List (String × Value)} {k : String} {v : Value}
    (h : ∀ p ∈ m, p.1 ≠ k) : pyDictInsert m k v = m ++ [(k, v)] := by
  unfold pyDictInsert
  rw [if_neg]
  intro hany
  rw [List.any_eq_true] at hany
  obtain ⟨p, hp, hb⟩ := hany
  exact h p hp (eq_of_beq hb)

theorem dictBuild_eq {pairs acc : List (String × Value)}
    (h : ((acc ++ pairs).map Prod.fst).Nodup) : dictBuild acc pairs = acc ++ pairs := by
  induction pairs generalizing acc with
  | nil => simp [dictBuild]
  | cons p rest ih =>
    obtain ⟨k, v⟩ := p
    unfold dictBuild
    have hfresh : ∀ q ∈ acc, q.1 ≠ k := by
      intro q hq hqk
      simp only [List.map_append, List.map_cons, List.nodup_append,
        List.nodup_cons] at h
      exact h.2.2 (List.mem_map_of_mem Prod.fst hq) (by simp [hqk])
    rw [pyDictInsert_fresh hfresh]
    have h2 : (((acc ++ [(k, v)]) ++ rest).map Prod.fst).Nodup := by
      rw [List.append_assoc]
      simpa using h
    rw [ih h2, List.append_assoc]
    simp

theorem map_fst_zip_sublist (names : List String) (row : List Value) :
    ((names.zip row).map Prod.fst).Sublist names := by
  induction names generalizing row with
  | nil => simp
  | cons n ns ih =>
    cases row with
    | nil => simp
    | cons r rs =>
      simp only [List.zip_cons_cons, List.map_cons]
      exact List.Sublist.cons₂ n (ih rs)

theorem dictOfRow_eq {names : List String} {row : List Value} (h : names.Nodup) :
    dictOfRow names row = names.zip row := by
  unfold dictOfRow
  exact dictBuild_eq (by simpa using (map_fst_zip_sublist names row).nodup h)

theorem zip_lookup {names : List String} {row : List Value} (h : names.Nodup) :
    ∀ (i : Nat) (hi : i < names.length) (hi2 : i < row.length),
      (names.zip row).lookup (names.get ⟨i, hi⟩) = some (row.get ⟨i, hi2⟩) := by
  induction names generalizing row with
  | nil => intro i hi _; exact absurd hi (by simp)
  | cons n ns ih =>
    intro i hi hi2
    cases row with
    | nil => exact absurd hi2 (by simp)
    | cons r rs =>
      rw [List.nodup_cons] at h
      cases i with
      | zero => simp [List.lookup]
      | succ i =>
        have hne : ((ns.get ⟨i, Nat.lt_of_succ_lt_succ hi⟩) == n) = false := by
          by_contra hb
          rw [Bool.not_eq_false] at hb
          exact h.1 (eq_of_beq hb ▸ ns.get_mem i (Nat.lt_of_succ_lt_succ hi))
        simp only [List.zip_cons_cons, List.get_cons_succ, List.lookup, hne]
        exact ih h.2 i (Nat.lt_of_succ_lt_succ hi) (Nat.lt_of_succ_lt_succ hi2)

theorem df_validate_type_unrecognized {v : Value} {ft : String}
    (h : recognizedTags.contains ft = false) :
    SchemaValidation_validate_type v ft = true := by
  simp [recognizedTags, textualTypes, integerTypes, decimalTypes,
    List.contains_iff_exists_mem_beq] at h
  simp [SchemaValidation_validate_type, textualTypes, integerTypes, decimalTypes, h]

/-! ## Claims -/

/-- Claim C1, counterexample: the claim asserts that `validate_type` - its
cited sources being both `schema_val.validate_type` and
`df_bq_ingest.SchemaValidation.validate_type` - returns false on every
unrecognized type tag; but the `df_bq_ingest` variant returns `True` for
the unrecognized tag "ARRAY" on the non-null value `"x"` (its trailing
`else` runs `str(value)` and falls through to `return True`). -/
theorem c1_counterexample :
    recognizedTags.contains "ARRAY" = false ∧
      SchemaValidation_validate_type (.str "x") "ARRAY" = true :=
  ⟨rfl, rfl⟩

/-- Claim C1, amended: in `schema_val.py`, `validate_type` returns false on
every type tag outside the recognized classes, so the per-field check on a
non-null value at such a field reports the type-mismatch violation; the
`df_bq_ingest.py` variant instead accepts every value at an unrecognized
tag (textual fallthrough). -/
theorem c1_unrecognized_tag :
    (∀ (v : Value) (ft name : String) (mode : Option String),
      recognizedTags.contains ft = false → isNull v = false →
        validate_type v ft = false ∧
          checkField v ⟨name, ft, mode⟩ = .error (.typeMismatch name v ft)) ∧
    (∀ (v : Value) (ft : String), recognizedTags.contains ft = false →
      SchemaValidation_validate_type v ft = true) := by
  refine ⟨?_, fun v ft h => df_validate_type_unrecognized h⟩
  intro v ft name mode h hnull
  have hv := validate_type_unrecognized (v := v) h
  refine ⟨hv, ?_⟩
  simp [checkField, hnull, hv]

/-- Claim C1, witness for the amended theorem's hypotheses, at the
unrecognized tags "ARRAY" and "STRUCT" and the non-null value `"x"`. -/
theorem c1_unrecognized_tag_witness :
    validate_type (.str "x") "ARRAY" = false ∧
      checkField (.str "x") ⟨"tags", "ARRAY", none⟩ =
        .error (.typeMismatch "tags" (.str "x") "ARRAY") ∧
      SchemaValidation_validate_type (.str "x") "STRUCT" = true :=
  ⟨(c1_unrecognized_tag.1 (.str "x") "ARRAY" "tags" none rfl rfl).1,
    (c1_unrecognized_tag.1 (.str "x") "ARRAY" "tags" none rfl rfl).2,
    c1_unrecognized_tag.2 (.str "x") "STRUCT" rfl⟩

/-- Claim C2: a row whose length differs from the schema's makes
`validate_data` report the arity mismatch at once - the result is the
arity violation whatever the row's contents and whatever rows follow, so
no per-field check of that row is reached. -/
theorem c2_arity_mismatch :
    ∀ (row : List Value) (schema : List BQField) (rest : List (List Value)),
      row.length ≠ schema.length →
        validateRow row schema = .error .arityMismatch ∧
          validate_data (row :: rest) schema = .error .arityMismatch := by
  intro row schema rest h
  have hb : (row.length != schema.length) = true := by simpa using h
  constructor
  · simp [validateRow, hb]
  · simp [validate_data, validateRow, hb]

/-- Claim C2, witness: a one-value row against the empty schema. -/
theorem c2_arity_mismatch_witness :
    [Value.int 1].length ≠ ([] : List BQField).length ∧
      validate_data [[Value.int 1]] [] = .error .arityMismatch :=
  ⟨by decide, (c2_arity_mismatch [.int 1] [] [] (by decide)).2⟩

/-- Claim C3: at a null value, a REQUIRED field always yields the
missing-required-field violation whatever its declared type, and a field
whose mode is NULLABLE or omitted never fails whatever its declared type
(no type check is applied to null). -/
theorem c3_null_handling :
    ∀ (name ftype : String),
      checkField .null ⟨name, ftype, some "REQUIRED"⟩ =
          .error (.missingRequiredField name) ∧
        checkField .null ⟨name, ftype, some "NULLABLE"⟩ = .ok () ∧
        checkField .null ⟨name, ftype, none⟩ = .ok () ∧
        validateRow [.null] [⟨name, ftype, some "REQUIRED"⟩] =
          .error (.missingRequiredField name) ∧
        validateRow [.null] [⟨name, ftype, some "NULLABLE"⟩] = .ok () ∧
        validateRow [.null] [⟨name, ftype, none⟩] = .ok () := by
  intro name ftype
  exact ⟨rfl, rfl, rfl, rfl, rfl, rfl⟩

/-- Claim C4: the TIMESTAMP branch equals the spec's ordered fallback
chain (ISO with trailing-Z normalization, then `.%f %Z`, then `%Z`, then
`.%f`, then the bare format; first success wins, exhaustion means not
coercible), and the four spec dialect examples are coercible while
"not-a-time" is not. -/
theorem c4_timestamp_chain :
    (∀ s : String, validate_type (.str s) "TIMESTAMP" = tsSpecChain s.data) ∧
      validate_type (.str "2023-07-01T08:15:30Z") "TIMESTAMP" = true ∧
      validate_type (.str "2023-07-02T10:20:45+02:00") "TIMESTAMP" = true ∧
      validate_type (.str "2023-07-10 02:15:25 UTC") "TIMESTAMP" = true ∧
      validate_type (.str "2023-07-11 01:22:55") "TIMESTAMP" = true ∧
      validate_type (.str "not-a-time") "TIMESTAMP" = false := by
  refine ⟨fun s => ts_eq_chain s.data, rfl, rfl, rfl, rfl, rfl⟩

/-- Claim C5, counterexample: the non-integral float 5.5 does not parse as
a base-10 integer, yet the code's integer branch accepts it, because
Python's `int()` truncates floats. -/
theorem c5_counterexample :
    validate_type (.float "5.5") "INT64" = true ∧ pyIntStrOk "5.5" = false :=
  ⟨rfl, rfl⟩

/-- Claim C5, amended: for every integer-class tag, coercibility is
`int()`-success: true on ints, bools and all finite floats (truncation),
on strings exactly base-10 integer parsing, false on everything else. -/
theorem c5_integer_class :
    ∀ (v : Value) (ft : String), integerTypes.contains ft = true →
      validate_type v ft = pyIntOk v := by
  intro v ft h
  simp [integerTypes, List.contains_iff_exists_mem_beq] at h
  rcases h with rfl | rfl | rfl | rfl | rfl | rfl | rfl <;> rfl

/-- Claim C5, witness for the amended theorem at the tag "INT64" and the
float 5.5. -/
theorem c5_integer_class_witness :
    validate_type (.float "5.5") "INT64" = pyIntOk (.float "5.5") :=
  c5_integer_class (.float "5.5") "INT64" rfl

/-- Claim C6: a value is coercible to BOOL exactly when its lowercased
textual form is one of "true", "false", "1", "0"; in particular "TRUE",
"0" and "false" are accepted and "yes" is not. -/
theorem c6_bool_coercion :
    (∀ v : Value,
      validate_type v "BOOL" = boolForms.contains (lowerStr (pyStr v))) ∧
      validate_type (.str "TRUE") "BOOL" = true ∧
      validate_type (.str "0") "BOOL" = true ∧
      validate_type (.str "false") "BOOL" = true ∧
      validate_type (.str "yes") "BOOL" = false :=
  ⟨fun _ => rfl, rfl, rfl, rfl, rfl⟩

/-- Claim C7, counterexample: "2023-7-4" is not of the exact `YYYY-MM-DD`
shape the claim requires, yet the code accepts it for DATE, because
`strptime`'s `%m` and `%d` also match single digits. -/
theorem c7_counterexample :
    specDateExact "2023-7-4".data = false ∧
      validate_type (.str "2023-7-4") "DATE" = true :=
  ⟨rfl, rfl⟩

/-- Claim C7, amended: a value is coercible to DATE exactly when it is a
string `year-month-day` with a four-digit year, a one- or two-digit month
1-12, a one- or two-digit (zero- or blank-padded) day, and a valid
calendar date; non-strings are never coercible. -/
theorem c7_date_rule :
    ∀ v : Value, validate_type v "DATE" =
      (match v with
       | .str s => specDateAmended s.data
       | _ => false) := by
  intro v
  cases v with
  | str s => exact pDate_eq_spec s.data
  | null => rfl
  | bool b => rfl
  | int n => rfl
  | float r => rfl
  | list vs => rfl
  | tuple vs => rfl
  | setv vs => rfl
  | dict es => rfl

/-- Claim C8: the token parser is NOT total - the claim is right that a
failed literal interpretation of the `ValueError`/`SyntaxError` kind (as
for the malformed "[1,2") silently keeps the token, but a dict or set
literal with an unhashable key, such as "curly [1]: 2 curly", makes
`ast.literal_eval` raise `TypeError`, which `parse_data`'s
`except (ValueError, SyntaxError)` does not catch (modelled as `none`),
contradicting the code's own fallback comment and the spec's totality
sentence. -/
theorem c8_parser_totality :
    litEval "\x7b[1]: 2\x7d" = .error .typeErr ∧
      parse_item (.str "\x7b[1]: 2\x7d") = none ∧
      litEval "[1,2" = .error .caught ∧
      parse_item (.str "[1,2") = some (.str "[1,2") :=
  ⟨rfl, rfl, rfl, rfl⟩

/-- Claim C9: parsing is idempotent on non-literal strings - "hello" comes
back unchanged, and whenever literal interpretation fails with the caught
error class the returned token is a fixed point of the parser. -/
theorem c9_parser_idempotent :
    parse_item (.str "hello") = some (.str "hello") ∧
      (∀ s : String, litEval s = .error .caught →
        (parse_item (.str s)).bind parse_item = parse_item (.str s)) := by
  refine ⟨rfl, ?_⟩
  intro s h
  simp [parse_item, h]

/-- Claim C9, witness at the non-literal string "hello". -/
theorem c9_parser_idempotent_witness :
    litEval "hello" = .error .caught ∧
      (parse_item (.str "hello")).bind parse_item = parse_item (.str "hello") :=
  ⟨rfl, c9_parser_idempotent.2 "hello" rfl⟩

/-- Claim C10: `convert_to_dict_format` builds each record by zipping the
column names with the row positionally; with distinct names and matching
lengths the i-th name maps to the i-th value, and when the lengths differ
the result is silently truncated to the shorter side. -/
theorem c10_convert_positional :
    (∀ (data : List (List Value)) (names : List String),
      convert_to_dict_format data names = data.map (dictOfRow names)) ∧
    (∀ (names : List String) (row : List Value), names.Nodup →
      (dictOfRow names row).length = min names.length row.length) ∧
    (∀ (names : List String) (row : List Value), names.Nodup →
      ∀ (i : Nat) (hi : i < names.length) (hi2 : i < row.length),
        (dictOfRow names row).lookup (names.get ⟨i, hi⟩) =
          some (row.get ⟨i, hi2⟩)) := by
  refine ⟨fun _ _ => rfl, ?_, ?_⟩
  · intro names row h
    rw [dictOfRow_eq h, List.length_zip]
  · intro names row h i hi hi2
    rw [dictOfRow_eq h]
    exact zip_lookup h i hi hi2

/-- Claim C10, witness: names ["a", "b"] against a shorter row (length
min) and against an equal-length row (positional lookup). -/
theorem c10_convert_positional_witness :
    (dictOfRow ["a", "b"] [Value.int 1]).length =
        min (["a", "b"] : List String).length [Value.int 1].length ∧
      (dictOfRow ["a", "b"] [Value.int 1, Value.int 2]).lookup "b" =
        some (Value.int 2) :=
  ⟨c10_convert_positional.2.1 ["a", "b"] [Value.int 1] (by decide),
    c10_convert_positional.2.2 ["a", "b"] [Value.int 1, Value.int 2] (by decide)
      1 (by decide) (by decide)⟩
